import Mathlib

/-!
Verification development for the Part 4 association-rule-mining script
(`Midterm-Part4-Run.py`). The script's own logic — directory checks,
interactive validated input, one-hot transaction encoding, result display,
CSV persistence, and rule deduplication — is embedded shallowly below;
theorems about these definitions settle the specification's claims.
Strings model Python strings; rationals model Python floats; lists of
records model pandas DataFrames (row order preserved); `Finset String`
models Python sets/frozensets of item names (Python set equality is
extensional, as is `Finset` equality). Console output and filesystem
changes are modelled as explicit lists of effects.
-/

set_option autoImplicit false

/-- A row of an itemsets DataFrame as returned by `apriori`/`fpgrowth`:
an `itemsets` frozenset column and a `support` column. -/
structure ItemsetRecord where
  itemsets : Finset String
  support : ℚ
deriving DecidableEq

instance : Inhabited ItemsetRecord := ⟨⟨∅, 0⟩⟩

/-- A row of a rules DataFrame as returned by `association_rules`:
`antecedents` and `consequents` frozensets plus metric columns
(`confidence`, `lift` stand for all retained metric fields). -/
structure Rule where
  antecedents : Finset String
  consequents : Finset String
  confidence : ℚ
  lift : ℚ
deriving DecidableEq

instance : Inhabited Rule := ⟨⟨∅, ∅, 0, 0⟩⟩

/-- `all_items = sorted(set(item for t in transactions for item in t))`:
the union of all transactions, sorted lexicographically (the order on
`String` is lexicographic). -/
def all_items (transactions : List (Finset String)) : List String :=
  (transactions.foldr (fun t acc => t ∪ acc) ∅).sort (· ≤ ·)

/-- A freshly allocated all-zero row of `pd.DataFrame(0, ...)`, one entry
per column. -/
def zeroRow (cols : List String) : List ℕ :=
  cols.map (fun _ => 0)

/-- The effect of `one_hot.loc[i, list(t)] = 1` on row `row` of a table
with columns `cols`: each entry whose column belongs to `t` becomes 1,
the others keep their value. -/
def locSet (cols : List String) (row : List ℕ) (t : Finset String) : List ℕ :=
  (cols.zip row).map (fun p => if p.1 ∈ t then 1 else p.2)

/-- `transactions_to_df`: builds the one-hot table. Columns are
`all_items transactions`; row `i` starts as zeros and then the columns of
transaction `i` are set to 1. -/
def transactions_to_df (transactions : List (Finset String)) : List (List ℕ) :=
  transactions.map (fun t =>
    locSet (all_items transactions) (zeroRow (all_items transactions)) t)

/-- Splitting a character list on the two-character separator `", "`,
left to right, non-overlapping, keeping empty tokens — the semantics of
Python `str.split(", ")`. -/
def splitCommaSpace : List Char → List (List Char)
  | ',' :: ' ' :: rest => [] :: splitCommaSpace rest
  | c :: rest =>
    match splitCommaSpace rest with
    | [] => [[c]]
    | tok :: toks => (c :: tok) :: toks
  | [] => [[]]

/-- `t.split(", ")` on a Python string. -/
def py_split_comma_space (s : String) : List String :=
  (splitCommaSpace s.toList).map List.asString

/-- `set(t.split(", "))`: one cell of the `ItemsPurchased` column parsed
into a transaction. -/
def parse_transaction (t : String) : Finset String :=
  (py_split_comma_space t).toFinset

/-- `transactions = [set(t.split(", ")) for t in df["ItemsPurchased"]]`. -/
def load_transactions (cells : List String) : List (Finset String) :=
  cells.map parse_transaction

/-- The deduplication key used by
`drop_duplicates(subset=["antecedents", "consequents"])`. -/
def ruleKey (r : Rule) : Finset String × Finset String :=
  (r.antecedents, r.consequents)

/-- `DataFrame.drop_duplicates(subset=["antecedents", "consequents"])`
with the default `keep="first"`: keeps the first record of each
(antecedent, consequent) pair, preserving order. -/
def drop_duplicates_by_pair : List Rule → List Rule
  | [] => []
  | r :: rs =>
    r :: drop_duplicates_by_pair (rs.filter (fun x => ruleKey x ≠ ruleKey r))
termination_by l => l.length
decreasing_by
  simp only [List.length_cons]
  exact Nat.lt_succ_of_le (List.length_filter_le _ _)

/-- `final_rules = pd.concat([apriori_rules, fpg_rules]).drop_duplicates(
subset=["antecedents", "consequents"])`. -/
def final_rules (apriori_rules fpg_rules : List Rule) : List Rule :=
  drop_duplicates_by_pair (apriori_rules ++ fpg_rules)

/-- Python `int()` applied to a (real-valued) float: truncation toward
zero. -/
def pyInt (q : ℚ) : ℤ :=
  if 0 ≤ q then ⌊q⌋ else ⌈q⌉

/-- `display_top_itemsets`: the (itemset, absolute count) pairs printed —
one per record of `itemsets_df.head(top_n)`, the count computed by
`int(row["support"] * len(df_onehot))` where `nRows = len(df_onehot)`. -/
def display_top_itemsets (itemsets_df : List ItemsetRecord) (nRows : ℕ)
    (top_n : ℕ) : List (Finset String × ℤ) :=
  (itemsets_df.take top_n).map
    (fun row => (row.itemsets, pyInt (row.support * nRows)))

/-- `display_top_itemsets` at its default argument `top_n=10`. -/
def display_top_itemsets_default (itemsets_df : List ItemsetRecord)
    (nRows : ℕ) : List (Finset String × ℤ) :=
  display_top_itemsets itemsets_df nRows 10

/-- Fixed-point rendering of a nonnegative rational with two digits after
the point, the decimal model of Python `f"{x:.2f}"`. -/
def fmtFixed2 (q : ℚ) : String :=
  let c : ℤ := round (q * 100)
  toString (c / 100) ++ "." ++
    (if c % 100 < 10 then "0" ++ toString (c % 100) else toString (c % 100))

/-- One print call of `display_rules`: either a plain text line, the
numbered rule line `Rule {i+1}: {antecedents} -> {consequents}` (the two
frozensets are carried as such: Python prints their elements in an
unspecified iteration order), or the confidence line. -/
inductive RLine where
  | text (line : String)
  | ruleLine (idx : ℕ) (ants cons : Finset String)
  | confLine (line : String)
deriving DecidableEq

/-- The `for i, row in rules_df.iterrows()` body of `display_rules`; the
DataFrame index is the range 0,1,2,…, carried here as the counter `i`. -/
def display_rules_aux : ℕ → List Rule → List RLine
  | _, [] => []
  | i, r :: rs =>
    RLine.ruleLine (i + 1) r.antecedents r.consequents ::
    RLine.confLine ("Confidence: " ++ fmtFixed2 (r.confidence * 100) ++ "%\n") ::
    display_rules_aux (i + 1) rs

/-- `display_rules`: prints the header, then either the no-rules notice
(empty input) or two lines per rule. -/
def display_rules (rules_df : List Rule) : List RLine :=
  RLine.text "\nFinal Association Rules:" ::
  (if rules_df.isEmpty then [RLine.text "No rules found for given thresholds."]
   else display_rules_aux 0 rules_df)

/-- One observable side effect of the script prelude. -/
inductive Effect where
  | makedirs (path : String)
  | printOut (line : String)
  | exitCode (code : ℕ)
deriving DecidableEq

/-- `input_dir = os.path.join(base_dir, "transactions")`. -/
def input_dir (base : String) : String := base ++ "/transactions"

/-- `output_dir = os.path.join(base_dir, "results")`. -/
def output_dir (base : String) : String := base ++ "/results"

/-- `f"Error: \x27{input_dir}\x27 not found."` -/
def err_not_found (base : String) : String :=
  "Error: \x27" ++ input_dir base ++ "\x27 not found."

/-- The second line printed when the input directory is missing. -/
def err_hint : String :=
  "Make sure the \x27transactions\x27 folder is in the same directory as this script."

/-- The message printed when no CSV file is found. -/
def no_csv_msg : String :=
  "No CSV datasets found in the \x27transactions\x27 folder."

/-- Python `s.endswith(suf)`. -/
def py_endswith (s suf : String) : Bool :=
  suf.toList.isSuffixOf s.toList

/-- `[f for f in os.listdir(input_dir) if f.endswith(".csv")]`. -/
def csv_files (files : List String) : List String :=
  files.filter (fun f => py_endswith f ".csv")

/-- Result of the script prelude: the directories existing afterwards,
the effects performed in order, and the discovered datasets (`none` when
the script exited). -/
structure SetupResult where
  fsAfter : List String
  effects : List Effect
  datasets : Option (List String)
deriving DecidableEq

/-- The script prelude, lines 16–48 of the source: resolve the two
directories, `os.makedirs(output_dir, exist_ok=True)`, exit 1 if the
input directory is missing, list the `.csv` files, exit 1 if there are
none, else print the numbered dataset listing. `fs` is the set of paths
existing on disk, `files` the directory listing of `input_dir`. -/
def program_setup (base : String) (fs : List String) (files : List String) :
    SetupResult :=
  let outDir := output_dir base
  let fs1 := if outDir ∈ fs then fs else outDir :: fs
  if input_dir base ∈ fs then
    let ds := csv_files files
    if ds.isEmpty then
      ⟨fs1, [Effect.makedirs outDir, Effect.printOut no_csv_msg,
             Effect.exitCode 1], none⟩
    else
      ⟨fs1,
       Effect.makedirs outDir ::
         Effect.printOut "\n=== Available Retailer Datasets ===" ::
         ds.enum.map (fun p => Effect.printOut (toString (p.1 + 1) ++ ". " ++ p.2)),
       some ds⟩
  else
    ⟨fs1, [Effect.makedirs outDir, Effect.printOut (err_not_found base),
           Effect.printOut err_hint, Effect.exitCode 1], none⟩

/-- Whitespace for the purposes of `int()`/`float()` argument stripping. -/
def isSpace (c : Char) : Bool :=
  c = ' ' || c = '\t' || c = '\n' || c = '\r'

/-- Leading and trailing whitespace removed. -/
def pyStrip (cs : List Char) : List Char :=
  ((cs.dropWhile isSpace).reverse.dropWhile isSpace).reverse

/-- A nonempty all-digit character list. -/
def digitsOk (cs : List Char) : Bool :=
  !cs.isEmpty && cs.all Char.isDigit

/-- The natural number denoted by a digit list. -/
def digitsToNat (cs : List Char) : ℕ :=
  cs.foldl (fun a c => a * 10 + (c.toNat - 48)) 0

/-- Model of Python `int(string)`: optional surrounding whitespace,
optional sign, a nonempty run of decimal digits; anything else raises
`ValueError` (here: `none`). -/
def pyParseInt (s : String) : Option ℤ :=
  match pyStrip s.toList with
  | '+' :: rest => if digitsOk rest then some ((digitsToNat rest : ℤ)) else none
  | '-' :: rest => if digitsOk rest then some (-(digitsToNat rest : ℤ)) else none
  | cs => if digitsOk cs then some ((digitsToNat cs : ℤ)) else none

/-- Splitting a character list on a single-character separator, keeping
empty tokens. -/
def splitOnChar (sep : Char) : List Char → List (List Char)
  | [] => [[]]
  | c :: rest =>
    if c = sep then [] :: splitOnChar sep rest
    else
      match splitOnChar sep rest with
      | [] => [[c]]
      | tok :: toks => (c :: tok) :: toks

/-- The rational denoted by an unsigned decimal literal `digits`,
`digits.digits`, `digits.` or `.digits`. -/
def decimalVal (cs : List Char) : Option ℚ :=
  match splitOnChar '.' cs with
  | [w] => if digitsOk w then some ((digitsToNat w : ℚ)) else none
  | [w, f] =>
    if (w.all Char.isDigit && f.all Char.isDigit) && !(w.isEmpty && f.isEmpty) then
      some ((digitsToNat w : ℚ) + (digitsToNat f : ℚ) / ((10 : ℚ) ^ f.length))
    else none
  | _ => none

/-- Model of Python `float(string)` restricted to finite decimal
literals: optional surrounding whitespace, optional sign, a decimal
literal; anything else raises `ValueError` (here: `none`). -/
def pyParseFloat (s : String) : Option ℚ :=
  match pyStrip s.toList with
  | '+' :: rest => decimalVal rest
  | '-' :: rest => (decimalVal rest).map Neg.neg
  | cs => decimalVal cs

/-- `f"Please enter a number between 1 and {len(available_datasets)}."` -/
def range_msg (n : ℕ) : String :=
  "Please enter a number between 1 and " ++ toString n ++ "."

/-- The dataset loop's `ValueError` message. -/
def invalid_int_msg : String := "Invalid input. Please enter a number."

/-- The threshold loops' `ValueError` message. -/
def invalid_float_msg : String :=
  "Invalid input. Please enter a decimal number between 0 and 1."

/-- The support loop's out-of-range message. -/
def support_range_msg : String := "Support must be between 0 and 1."

/-- The confidence loop's out-of-range message. -/
def confidence_range_msg : String := "Confidence must be between 0 and 1."

/-- The dataset-selection loop over a queue of raw input lines: returns
the corrective messages printed and, on success, the accepted choice with
the unconsumed inputs (`none` models a loop still waiting for input). -/
def select_dataset_loop (n : ℕ) : List String → List String × Option (ℤ × List String)
  | [] => ([], none)
  | s :: rest =>
    match pyParseInt s with
    | some k =>
      if 1 ≤ k ∧ k ≤ (n : ℤ) then ([], some (k, rest))
      else
        let p := select_dataset_loop n rest
        (range_msg n :: p.1, p.2)
    | none =>
      let p := select_dataset_loop n rest
      (invalid_int_msg :: p.1, p.2)

/-- The shared shape of the two threshold loops: parse a float, accept
iff `0 < v <= 1`, print the given out-of-range message otherwise. -/
def float_threshold_loop (outOfRange : String) :
    List String → List String × Option (ℚ × List String)
  | [] => ([], none)
  | s :: rest =>
    match pyParseFloat s with
    | some v =>
      if 0 < v ∧ v ≤ 1 then ([], some (v, rest))
      else
        let p := float_threshold_loop outOfRange rest
        (outOfRange :: p.1, p.2)
    | none =>
      let p := float_threshold_loop outOfRange rest
      (invalid_float_msg :: p.1, p.2)

/-- The minimum-support input loop. -/
def min_support_loop : List String → List String × Option (ℚ × List String) :=
  float_threshold_loop support_range_msg

/-- The minimum-confidence input loop. -/
def min_confidence_loop : List String → List String × Option (ℚ × List String) :=
  float_threshold_loop confidence_range_msg

/-- Python `selected_dataset.replace(".csv", "")`: every non-overlapping
occurrence of `.csv` removed, scanning left to right. -/
def removeDotCsv : List Char → List Char
  | '.' :: 'c' :: 's' :: 'v' :: rest => removeDotCsv rest
  | c :: rest => c :: removeDotCsv rest
  | [] => []

/-- `stem = selected_dataset.replace(".csv", "")` (named `prefix` in the
source). -/
def stem (selected_dataset : String) : String :=
  (removeDotCsv selected_dataset.toList).asString

/-- The four output file names written by the persister, in write
order. -/
def saved_files (selected_dataset : String) : List String :=
  [stem selected_dataset ++ "_apriori_itemsets.csv",
   stem selected_dataset ++ "_apriori_rules.csv",
   stem selected_dataset ++ "_fpgrowth_itemsets.csv",
   stem selected_dataset ++ "_fpgrowth_rules.csv"]

/-- Follows the claim's words, for comparison with `stem`: only the
trailing `.csv` extension removed, the rest of the name unchanged. -/
def stripTrailingDotCsv (s : String) : String :=
  if py_endswith s ".csv" then (s.toList.take (s.toList.length - 4)).asString
  else s

/-- Concrete transactions used to instantiate theorems. -/
def tsEx : List (Finset String) := [{"b"}, {"a", "b"}]

/-- Concrete transactions with an empty transaction, used to instantiate
theorems. -/
def tsEmptyRow : List (Finset String) := [{"a"}, ∅]

/-- A concrete rule used to instantiate theorems. -/
def ruleEx1 : Rule := ⟨{"a"}, {"b"}, 1, 1⟩

/-- A second concrete rule with the same (antecedent, consequent) pair as
`ruleEx1` but different metric fields. -/
def ruleEx2 : Rule := ⟨{"a"}, {"b"}, 0, 2⟩

/-- A concrete itemset record used to instantiate theorems. -/
def itemEx : ItemsetRecord := ⟨{"a"}, 1⟩
/-! Helper lemmas about the encoder. -/

theorem mem_foldr_union (ts : List (Finset String)) (x : String) :
    x ∈ ts.foldr (fun t acc => t ∪ acc) ∅ ↔ ∃ t ∈ ts, x ∈ t := by
  induction ts with
  | nil => simp
  | cons t rest ih => simp [ih]

theorem mem_all_items (ts : List (Finset String)) (x : String) :
    x ∈ all_items ts ↔ ∃ t ∈ ts, x ∈ t := by
  rw [all_items, Finset.mem_sort]
  exact mem_foldr_union ts x

theorem locSet_zeroRow (cols : List String) (t : Finset String) :
    locSet cols (zeroRow cols) t = cols.map (fun c => if c ∈ t then 1 else 0) := by
  induction cols with
  | nil => rfl
  | cons c cs ih =>
    simp only [locSet, zeroRow, List.map_cons, List.zip_cons_cons] at *
    exact congrArg _ ih

theorem transactions_to_df_row (ts : List (Finset String)) (i : ℕ)
    (hi : i < ts.length) :
    (transactions_to_df ts).getD i [] =
      (all_items ts).map (fun c => if c ∈ ts.getD i ∅ then 1 else 0) := by
  unfold transactions_to_df
  rw [List.getD_eq_getElem _ _ (by simpa using hi), List.getElem_map,
      locSet_zeroRow, List.getD_eq_getElem _ _ hi]

theorem sum_indicator : ∀ (l : List String) (t : Finset String), l.Nodup →
    (∀ x ∈ t, x ∈ l) →
    (l.map (fun c => if c ∈ t then (1 : ℕ) else 0)).sum = t.card := by
  intro l
  induction l with
  | nil =>
    intro t _ hsub
    have ht : t = ∅ := by
      apply Finset.eq_empty_of_forall_not_mem
      intro x hx
      simpa using hsub x hx
    simp [ht]
  | cons c cs ih =>
    intro t hnd hsub
    obtain ⟨hcn, hnd'⟩ := List.nodup_cons.mp hnd
    by_cases hc : c ∈ t
    · have hmap : cs.map (fun x => if x ∈ t then (1 : ℕ) else 0) =
          cs.map (fun x => if x ∈ t.erase c then 1 else 0) := by
        apply List.map_congr_left
        intro a ha
        have hac : a ≠ c := fun h => hcn (h ▸ ha)
        simp [Finset.mem_erase, hac]
      have hsub' : ∀ x ∈ t.erase c, x ∈ cs := by
        intro x hx
        obtain ⟨hxc, hxt⟩ := Finset.mem_erase.mp hx
        rcases List.mem_cons.mp (hsub x hxt) with h | h
        · exact absurd h hxc
        · exact h
      have := ih (t.erase c) hnd' hsub'
      calc ((c :: cs).map (fun x => if x ∈ t then (1 : ℕ) else 0)).sum
          = 1 + (cs.map (fun x => if x ∈ t.erase c then (1 : ℕ) else 0)).sum := by
            simp [hc, hmap]
        _ = 1 + (t.erase c).card := by rw [this]
        _ = t.card := by
            have := Finset.card_erase_add_one hc
            omega
    · have hsub' : ∀ x ∈ t, x ∈ cs := by
        intro x hxt
        rcases List.mem_cons.mp (hsub x hxt) with h | h
        · exact absurd (h ▸ hxt) hc
        · exact h
      simp [hc, ih t hnd' hsub']

/-- C1: the Transaction Encoder produces a table whose columns are
exactly the distinct items occurring in any transaction, sorted
lexicographically; the entry at row `i`, column `j` is 1 iff column `j`'s
item is a member of transaction `i`, and 0 otherwise; the sum of row `i`
equals the cardinality of transaction `i`; and the number of columns
equals the number of distinct items across all transactions. -/
theorem c1_transaction_encoder (ts : List (Finset String)) :
    (∀ c, c ∈ all_items ts ↔ ∃ t ∈ ts, c ∈ t) ∧
    (all_items ts).Sorted (· ≤ ·) ∧
    (all_items ts).Nodup ∧
    (transactions_to_df ts).length = ts.length ∧
    (∀ i, i < ts.length →
      ((transactions_to_df ts).getD i []).length = (all_items ts).length) ∧
    (∀ i j, i < ts.length → j < (all_items ts).length →
      ((transactions_to_df ts).getD i []).getD j 0 =
        if (all_items ts).getD j "" ∈ ts.getD i ∅ then 1 else 0) ∧
    (∀ i, i < ts.length →
      ((transactions_to_df ts).getD i []).sum = (ts.getD i ∅).card) ∧
    (all_items ts).length = (ts.foldr (fun t acc => t ∪ acc) ∅).card := by
  refine ⟨mem_all_items ts, Finset.sort_sorted _ _, Finset.sort_nodup _ _, ?_, ?_, ?_, ?_, ?_⟩
  · simp [transactions_to_df]
  · intro i hi
    rw [transactions_to_df_row ts i hi, List.length_map]
  · intro i j hi hj
    rw [transactions_to_df_row ts i hi,
        List.getD_eq_getElem _ _ (by simpa using hj), List.getElem_map,
        List.getD_eq_getElem _ _ hj]
  · intro i hi
    rw [transactions_to_df_row ts i hi]
    apply sum_indicator _ _ (Finset.sort_nodup _ _)
    intro x hx
    refine (mem_all_items ts x).mpr ⟨ts.getD i ∅, ?_, hx⟩
    rw [List.getD_eq_getElem _ _ hi]
    exact List.getElem_mem hi
  · exact (Finset.length_sort _)

/-- Witness for C1 at the concrete transactions `tsEx`: the entry at row
1, column 0 is the membership indicator, and row 1 sums to the
cardinality of transaction 1. -/
theorem c1_transaction_encoder_witness :
    (((transactions_to_df tsEx).getD 1 []).getD 0 0 =
      if (all_items tsEx).getD 0 "" ∈ tsEx.getD 1 ∅ then 1 else 0) ∧
    ((transactions_to_df tsEx).getD 1 []).sum = (tsEx.getD 1 ∅).card :=
  ⟨(c1_transaction_encoder tsEx).2.2.2.2.2.1 1 0 (by decide)
      (by simp [all_items, Finset.length_sort, tsEx]),
   (c1_transaction_encoder tsEx).2.2.2.2.2.2.1 1 (by decide)⟩

/-- An entry of the encoded table is never above 1 (out-of-range indices
read the defaults, which are 0). -/
theorem encoder_entry_le_one (ts : List (Finset String)) (i j : ℕ) :
    ((transactions_to_df ts).getD i []).getD j 0 ≤ 1 := by
  by_cases hi : i < ts.length
  · rw [transactions_to_df_row ts i hi]
    by_cases hj : j < (all_items ts).length
    · rw [List.getD_eq_getElem _ _ (by simpa using hj), List.getElem_map]
      split <;> omega
    · rw [List.getD_eq_default _ _ (by simpa using Nat.le_of_not_lt hj)]
      omega
  · rw [show (transactions_to_df ts).getD i [] = [] from
        List.getD_eq_default _ _ (by simp [transactions_to_df]; omega)]
    simp

/-- C9: the encoder is total on degenerate inputs: an empty transaction
sequence yields an empty vocabulary and an empty table, and an empty
transaction yields an all-zero row. -/
theorem c9_encoder_degenerate :
    (all_items [] = [] ∧ transactions_to_df [] = []) ∧
    (∀ (ts : List (Finset String)) (i : ℕ), i < ts.length → ts.getD i ∅ = ∅ →
      (transactions_to_df ts).getD i [] = zeroRow (all_items ts)) := by
  refine ⟨⟨by simp [all_items], rfl⟩, ?_⟩
  intro ts i hi hempty
  rw [transactions_to_df_row ts i hi, hempty]
  simp [zeroRow]

/-- Witness for C9 at `tsEmptyRow`: its second transaction is empty, and
its encoded row is the all-zero row. -/
theorem c9_encoder_degenerate_witness :
    (transactions_to_df tsEmptyRow).getD 1 [] = zeroRow (all_items tsEmptyRow) :=
  c9_encoder_degenerate.2 tsEmptyRow 1 (by decide) (by decide)

/-- C10: the parsed transaction is the set of the cell's `", "`-separated
tokens — membership coincides with token membership, a repeated token
contributes exactly one element (the cardinality is the number of
distinct tokens) — and hence every entry of a table encoded from parsed
cells is at most one 1. -/
theorem c10_items_unique (cell : String) :
    (∀ s, s ∈ parse_transaction cell ↔ s ∈ py_split_comma_space cell) ∧
    (parse_transaction cell).card = (py_split_comma_space cell).dedup.length ∧
    (∀ (cells : List String) (i j : ℕ),
      ((transactions_to_df (load_transactions cells)).getD i []).getD j 0 ≤ 1) := by
  refine ⟨?_, ?_, ?_⟩
  · intro s
    simp [parse_transaction]
  · exact List.card_toFinset _
  · intro cells i j
    exact encoder_entry_le_one _ i j

/-! Helper lemmas about the rule-merger deduplication. -/

theorem ddp_subset : ∀ (l : List Rule), ∀ r ∈ drop_duplicates_by_pair l, r ∈ l := by
  intro l
  induction l using drop_duplicates_by_pair.induct with
  | case1 => simp [drop_duplicates_by_pair]
  | case2 r rs ih =>
    intro x hx
    rw [drop_duplicates_by_pair] at hx
    rcases List.mem_cons.mp hx with h | h
    · simp [h]
    · exact List.mem_cons_of_mem _ (List.mem_of_mem_filter (ih x h))

theorem find?_filter_of_imp {α : Type} (p q : α → Bool) :
    ∀ (l : List α), (∀ a, p a = true → q a = true) →
    (l.filter q).find? p = l.find? p := by
  intro l h
  induction l with
  | nil => rfl
  | cons a l ih =>
    by_cases hq : q a
    · rw [List.filter_cons_of_pos hq]
      by_cases hp : p a
      · rw [List.find?_cons_of_pos _ hp, List.find?_cons_of_pos _ hp]
      · rw [List.find?_cons_of_neg _ (by simpa using hp),
            List.find?_cons_of_neg _ (by simpa using hp), ih]
    · have hp : ¬ p a = true := fun hpa => hq (h a hpa)
      rw [List.filter_cons_of_neg (by simpa using hq), ih,
          List.find?_cons_of_neg _ (by simpa using hp)]

theorem ddp_first_occurrence :
    ∀ (l : List Rule), ∀ r ∈ drop_duplicates_by_pair l,
    l.find? (fun x => decide (ruleKey x = ruleKey r)) = some r := by
  intro l
  induction l using drop_duplicates_by_pair.induct with
  | case1 => simp [drop_duplicates_by_pair]
  | case2 a rs ih =>
    intro x hx
    rw [drop_duplicates_by_pair] at hx
    rcases List.mem_cons.mp hx with h | h
    · subst h
      rw [List.find?_cons_of_pos _ (by simp)]
    · have hkey : ruleKey x ≠ ruleKey a := by
        simpa using List.of_mem_filter (ddp_subset _ x h)
      rw [List.find?_cons_of_neg _ (by simpa using fun e => hkey e.symm)]
      rw [← find?_filter_of_imp (fun y => decide (ruleKey y = ruleKey x))
            (fun y => decide (ruleKey y ≠ ruleKey a)) rs ?_]
      · exact ih x h
      · intro b hb
        simp only [decide_eq_true_eq] at hb ⊢
        exact fun e => hkey (hb.symm.trans e)

theorem ddp_pairwise (l : List Rule) :
    (drop_duplicates_by_pair l).Pairwise (fun a b => ruleKey a ≠ ruleKey b) := by
  induction l using drop_duplicates_by_pair.induct with
  | case1 => simp [drop_duplicates_by_pair]
  | case2 a rs ih =>
    rw [drop_duplicates_by_pair]
    refine List.Pairwise.cons ?_ ih
    intro b hb
    have : ruleKey b ≠ ruleKey a := by
      simpa using List.of_mem_filter (ddp_subset _ b hb)
    exact fun e => this e.symm

theorem ddp_covers :
    ∀ (l : List Rule) (r : Rule), r ∈ l →
    ∃ x ∈ drop_duplicates_by_pair l, ruleKey x = ruleKey r := by
  intro l
  induction l using drop_duplicates_by_pair.induct with
  | case1 => simp
  | case2 a rs ih =>
    intro r hr
    rw [drop_duplicates_by_pair]
    by_cases hkey : ruleKey r = ruleKey a
    · exact ⟨a, List.mem_cons_self _ _, hkey.symm⟩
    · rcases List.mem_cons.mp hr with h | h
      · exact absurd (congrArg ruleKey h) hkey
      · have hrf : r ∈ rs.filter (fun x => decide (ruleKey x ≠ ruleKey a)) :=
          List.mem_filter.mpr ⟨h, by simpa using hkey⟩
        obtain ⟨x, hx, hxk⟩ := ih r hrf
        exact ⟨x, List.mem_cons_of_mem _ hx, hxk⟩

/-- C2: the Rule Merger concatenates the Apriori rules before the
FP-Growth rules and keeps, per distinct (antecedent, consequent) pair,
exactly the first record in concatenation order, with all of its fields:
the merged keys are pairwise distinct, every merged record is the first
occurrence of its key in the concatenation, and every key occurring in
either input is represented. -/
theorem c2_rule_merger (apriori_rules fpg_rules : List Rule) :
    ((final_rules apriori_rules fpg_rules).Pairwise
      (fun a b => ruleKey a ≠ ruleKey b)) ∧
    (∀ r ∈ final_rules apriori_rules fpg_rules,
      (apriori_rules ++ fpg_rules).find?
        (fun x => decide (ruleKey x = ruleKey r)) = some r) ∧
    (∀ r ∈ apriori_rules ++ fpg_rules,
      ∃ x ∈ final_rules apriori_rules fpg_rules, ruleKey x = ruleKey r) := by
  exact ⟨ddp_pairwise _, fun r hr => ddp_first_occurrence _ r hr,
         fun r hr => ddp_covers _ r hr⟩

/-- Witness for C2 at one Apriori rule and one FP-Growth rule sharing the
(antecedent, consequent) pair: the retained record is the first
occurrence (the Apriori one, all fields included), and the duplicate key
is still represented. -/
theorem c2_rule_merger_witness :
    ([ruleEx1] ++ [ruleEx2]).find?
      (fun x => decide (ruleKey x = ruleKey ruleEx1)) = some ruleEx1 ∧
    (∃ x ∈ final_rules [ruleEx1] [ruleEx2], ruleKey x = ruleKey ruleEx2) :=
  ⟨(c2_rule_merger [ruleEx1] [ruleEx2]).2.1 ruleEx1
      (by rw [final_rules]
          show ruleEx1 ∈ drop_duplicates_by_pair (ruleEx1 :: [ruleEx2])
          rw [drop_duplicates_by_pair]
          exact List.mem_cons_self _ _),
   (c2_rule_merger [ruleEx1] [ruleEx2]).2.2 ruleEx2 (by simp)⟩

/-- C3 counterexample: at one record with support 1/2 over 3
transactions, the code (`int(...)`, i.e. `pyInt`) shows the count 1,
while round(support × transaction_count) is 2, so the claimed formula
does not match the code. -/
theorem c3_count_counterexample :
    display_top_itemsets [⟨{"a"}, 1/2⟩] 3 10 = [({"a"}, 1)] ∧
    round (((1 : ℚ)/2) * ((3 : ℕ) : ℚ)) = 2 ∧ ((1 : ℤ)) ≠ 2 := by
  have h32 : ((1 : ℚ)/2) * ((3 : ℕ) : ℚ) = 3/2 := by push_cast; ring
  refine ⟨?_, ?_, by decide⟩
  · have h1 : pyInt (((1 : ℚ)/2) * ((3 : ℕ) : ℚ)) = 1 := by
      rw [h32, pyInt, if_pos (by norm_num)]
      norm_num
    have hd : display_top_itemsets [⟨{"a"}, 1/2⟩] 3 10 =
        [({"a"}, pyInt (((1 : ℚ)/2) * ((3 : ℕ) : ℚ)))] := rfl
    rw [hd, h1]
  · rw [h32, round_eq]
    norm_num

/-- C3 (amended): `display_top_itemsets` prints at most the first
`top_n` records (`display_top_itemsets_default` is the `top_n = 10`
default), and the absolute count shown for record `k` is the truncation
toward zero (Python `int`) of support × transaction_count — which agrees
with rounding exactly when that product is an integer. -/
theorem c3_display_top_itemsets (itemsets_df : List ItemsetRecord)
    (nRows top_n : ℕ) :
    (display_top_itemsets itemsets_df nRows top_n).length =
      min top_n itemsets_df.length ∧
    display_top_itemsets_default itemsets_df nRows =
      display_top_itemsets itemsets_df nRows 10 ∧
    (∀ k, k < min top_n itemsets_df.length →
      (display_top_itemsets itemsets_df nRows top_n).getD k (∅, 0) =
        ((itemsets_df.getD k default).itemsets,
         pyInt ((itemsets_df.getD k default).support * nRows))) := by
  refine ⟨by simp [display_top_itemsets], rfl, ?_⟩
  intro k hk
  have hk' : k < itemsets_df.length := lt_of_lt_of_le hk (min_le_right _ _)
  rw [display_top_itemsets,
      List.getD_eq_getElem _ _ (by simpa using hk), List.getElem_map,
      List.getElem_take, List.getD_eq_getElem _ _ hk']

/-- Witness for C3 (amended) at one concrete record and two
transactions. -/
theorem c3_display_top_itemsets_witness :
    (display_top_itemsets [itemEx] 2 5).getD 0 (∅, 0) =
      (([itemEx].getD 0 default).itemsets,
       pyInt (([itemEx].getD 0 default).support * (2 : ℕ))) :=
  (c3_display_top_itemsets [itemEx] 2 5).2.2 0 (by decide)

/-- C4 counterexample: for the selectable dataset name `a.csv.csv`,
`replace(".csv", "")` produces the stem `a`, not the trailing-extension
strip `a.csv`, so the written file names differ from the claimed ones. -/
theorem c4_counterexample :
    stem "a.csv.csv" = "a" ∧
    stripTrailingDotCsv "a.csv.csv" = "a.csv" ∧
    ("a" : String) ≠ "a.csv" ∧
    saved_files "a.csv.csv" =
      ["a_apriori_itemsets.csv", "a_apriori_rules.csv",
       "a_fpgrowth_itemsets.csv", "a_fpgrowth_rules.csv"] := by
  refine ⟨by decide, by decide, by decide, by decide⟩

/-- C4 (amended): the Result Persister writes exactly four distinct CSV
files named `{stem}_{algorithm}_{itemsets|rules}.csv` for the two
algorithms, where the stem is the selected dataset's filename with every
occurrence of `.csv` removed (`replace(".csv", "")`), not only the
trailing extension. -/
theorem c4_saved_files (selected_dataset : String) :
    (saved_files selected_dataset).length = 4 ∧
    (saved_files selected_dataset).Nodup ∧
    saved_files selected_dataset =
      ["_apriori_itemsets.csv", "_apriori_rules.csv",
       "_fpgrowth_itemsets.csv", "_fpgrowth_rules.csv"].map
        (fun sfx => stem selected_dataset ++ sfx) := by
  refine ⟨rfl, ?_, rfl⟩
  have hinj : Function.Injective (fun sfx => stem selected_dataset ++ sfx) := by
    intro a b h
    have := congrArg String.data h
    simp only [String.data_append] at this
    exact String.ext (List.append_cancel_left this)
  have : (["_apriori_itemsets.csv", "_apriori_rules.csv",
      "_fpgrowth_itemsets.csv", "_fpgrowth_rules.csv"].map
        (fun sfx => stem selected_dataset ++ sfx)).Nodup :=
    List.Nodup.map hinj (by decide)
  exact this

/-- C8 counterexample: on the empty rule sequence `display_rules` does
not print only the notice — the function prints its header line first. -/
theorem c8_counterexample :
    display_rules [] ≠ [RLine.text "No rules found for given thresholds."] ∧
    display_rules [] =
      [RLine.text "\nFinal Association Rules:",
       RLine.text "No rules found for given thresholds."] :=
  ⟨by decide, rfl⟩

theorem display_rules_aux_spec :
    ∀ (l : List Rule) (i : ℕ),
    (display_rules_aux i l).length = 2 * l.length ∧
    (∀ k, k < l.length →
      (display_rules_aux i l).getD (2*k) (RLine.text "") =
        RLine.ruleLine (i + k + 1) (l.getD k default).antecedents
          (l.getD k default).consequents ∧
      (display_rules_aux i l).getD (2*k+1) (RLine.text "") =
        RLine.confLine ("Confidence: " ++
          fmtFixed2 ((l.getD k default).confidence * 100) ++ "%\n")) := by
  intro l
  induction l with
  | nil => intro i; exact ⟨rfl, by intro k hk; exact absurd hk (by simp)⟩
  | cons r rs ih =>
    intro i
    refine ⟨by simp [display_rules_aux, (ih (i+1)).1]; ring, ?_⟩
    intro k hk
    match k with
    | 0 => exact ⟨rfl, rfl⟩
    | k + 1 =>
      have hk' : k < rs.length := by simpa using hk
      have h2 : 2 * (k + 1) = (2 * k + 1) + 1 := by ring
      have h3 : 2 * (k + 1) + 1 = (2 * k + 1 + 1) + 1 := by ring
      obtain ⟨ha, hb⟩ := (ih (i + 1)).2 k hk'
      constructor
      · rw [h2, display_rules_aux, List.getD_cons_succ, List.getD_cons_succ, ha]
        simp [List.getD_cons_succ]
        ring_nf
      · rw [h3, display_rules_aux, List.getD_cons_succ, List.getD_cons_succ, hb]
        simp [List.getD_cons_succ]

/-- C8 (amended): `display_rules` always prints its header line first;
on the empty sequence it then prints exactly the notice
`No rules found for given thresholds.` and nothing else (it does not
iterate), and otherwise it prints, for each rule `k` (0-based), the
1-based index `k+1` with the antecedent and consequent sets, followed by
the confidence as a percentage formatted with two decimal places. -/
theorem c8_display_rules (rules_df : List Rule) :
    (rules_df = [] → display_rules rules_df =
      [RLine.text "\nFinal Association Rules:",
       RLine.text "No rules found for given thresholds."]) ∧
    (rules_df ≠ [] →
      (display_rules rules_df).length = 1 + 2 * rules_df.length ∧
      (display_rules rules_df).getD 0 (RLine.text "") =
        RLine.text "\nFinal Association Rules:" ∧
      (∀ k, k < rules_df.length →
        (display_rules rules_df).getD (2*k+1) (RLine.text "") =
          RLine.ruleLine (k + 1) (rules_df.getD k default).antecedents
            (rules_df.getD k default).consequents ∧
        (display_rules rules_df).getD (2*k+2) (RLine.text "") =
          RLine.confLine ("Confidence: " ++
            fmtFixed2 ((rules_df.getD k default).confidence * 100) ++ "%\n"))) := by
  constructor
  · intro h
    subst h
    rfl
  · intro h
    have hne : rules_df.isEmpty = false := by
      cases rules_df with
      | nil => exact absurd rfl h
      | cons a l => rfl
    refine ⟨?_, ?_, ?_⟩
    · simp [display_rules, hne, (display_rules_aux_spec rules_df 0).1]
      omega
    · simp [display_rules, hne]
    · intro k hk
      obtain ⟨ha, hb⟩ := (display_rules_aux_spec rules_df 0).2 k hk
      constructor
      · rw [display_rules, hne]
        simp only [Bool.false_eq_true, if_false, List.getD_cons_succ]
        rw [ha]
        simp [Nat.zero_add]
      · rw [display_rules, hne]
        simp only [Bool.false_eq_true, if_false, List.getD_cons_succ]
        rw [show 2*k+1 = 2*k+1 from rfl]
        exact hb

/-- Witness for C8 (amended): instantiation at the empty sequence and at
the one-rule sequence `[ruleEx1]`. -/
theorem c8_display_rules_witness :
    display_rules ([] : List Rule) =
      [RLine.text "\nFinal Association Rules:",
       RLine.text "No rules found for given thresholds."] ∧
    (display_rules [ruleEx1]).getD 1 (RLine.text "") =
      RLine.ruleLine 1 ([ruleEx1].getD 0 default).antecedents
        ([ruleEx1].getD 0 default).consequents :=
  ⟨(c8_display_rules []).1 rfl,
   (((c8_display_rules [ruleEx1]).2 (by simp)).2.2 0 (by decide)).1⟩

/-! Helper characterizations of the three outcomes of the prelude. -/

theorem program_setup_missing (base : String) (fs files : List String)
    (h : input_dir base ∉ fs) :
    program_setup base fs files =
      ⟨if output_dir base ∈ fs then fs else output_dir base :: fs,
       [Effect.makedirs (output_dir base), Effect.printOut (err_not_found base),
        Effect.printOut err_hint, Effect.exitCode 1], none⟩ := by
  simp [program_setup, h]

theorem program_setup_nocsv (base : String) (fs files : List String)
    (h : input_dir base ∈ fs) (h2 : csv_files files = []) :
    program_setup base fs files =
      ⟨if output_dir base ∈ fs then fs else output_dir base :: fs,
       [Effect.makedirs (output_dir base), Effect.printOut no_csv_msg,
        Effect.exitCode 1], none⟩ := by
  simp [program_setup, h, h2]

theorem program_setup_ok (base : String) (fs files : List String)
    (h : input_dir base ∈ fs) (h2 : csv_files files ≠ []) :
    program_setup base fs files =
      ⟨if output_dir base ∈ fs then fs else output_dir base :: fs,
       Effect.makedirs (output_dir base) ::
         Effect.printOut "\n=== Available Retailer Datasets ===" ::
         (csv_files files).enum.map
           (fun p => Effect.printOut (toString (p.1 + 1) ++ ". " ++ p.2)),
       some (csv_files files)⟩ := by
  have h2' : (csv_files files).isEmpty = false := by
    cases hcf : csv_files files with
    | nil => exact absurd hcf h2
    | cons a l => rfl
  simp [program_setup, h, h2']

/-- C5 counterexample: starting from an empty filesystem (so the input
directory is missing and the error path is taken), the prelude still
creates the output directory — a directory is created on this error
path. -/
theorem c5_counterexample :
    (program_setup "" [] []).datasets = none ∧
    Effect.exitCode 1 ∈ (program_setup "" [] []).effects ∧
    (program_setup "" [] []).fsAfter = [output_dir ""] ∧
    output_dir "" ∉ ([] : List String) := by
  decide

/-- C5 (amended): when the Dataset Locator fails because the input
directory does not exist, the program's only creation side effect before
terminating is `os.makedirs` of the output directory, performed before
the check — every path existing afterwards either existed before or is
the output directory; no other directory or file is created, and the
program prints the two error lines and exits 1. -/
theorem c5_error_path_effects (base : String) (fs files : List String)
    (h : input_dir base ∉ fs) :
    (program_setup base fs files).effects =
      [Effect.makedirs (output_dir base), Effect.printOut (err_not_found base),
       Effect.printOut err_hint, Effect.exitCode 1] ∧
    (program_setup base fs files).datasets = none ∧
    (∀ p, p ∈ (program_setup base fs files).fsAfter →
      p ∈ fs ∨ p = output_dir base) := by
  rw [program_setup_missing base fs files h]
  refine ⟨rfl, rfl, ?_⟩
  intro p hp
  by_cases hout : output_dir base ∈ fs
  · rw [if_pos hout] at hp
    exact Or.inl hp
  · rw [if_neg hout] at hp
    rcases List.mem_cons.mp hp with h1 | h1
    · exact Or.inr h1
    · exact Or.inl h1

/-- Witness for C5 (amended) at a concrete filesystem not containing the
input directory. -/
theorem c5_error_path_effects_witness :
    (program_setup "b" ["x"] []).datasets = none ∧
    (∀ p, p ∈ (program_setup "b" ["x"] []).fsAfter →
      p ∈ ["x"] ∨ p = output_dir "b") :=
  ⟨(c5_error_path_effects "b" ["x"] [] (by decide)).2.1,
   (c5_error_path_effects "b" ["x"] [] (by decide)).2.2⟩

/-- C7: if the input directory does not exist the program prints an
error naming the missing path and exits with status 1; if it exists but
lists no `.csv` file the program reports that and exits with status 1;
otherwise these two checks exit nothing — the datasets are returned and
no exit effect occurs. -/
theorem c7_exit_behaviour (base : String) (fs files : List String) :
    (input_dir base ∉ fs →
      (program_setup base fs files).datasets = none ∧
      Effect.exitCode 1 ∈ (program_setup base fs files).effects ∧
      Effect.printOut (err_not_found base) ∈ (program_setup base fs files).effects ∧
      (∃ pre post, err_not_found base = pre ++ input_dir base ++ post)) ∧
    (input_dir base ∈ fs → csv_files files = [] →
      (program_setup base fs files).datasets = none ∧
      Effect.exitCode 1 ∈ (program_setup base fs files).effects ∧
      Effect.printOut no_csv_msg ∈ (program_setup base fs files).effects) ∧
    (input_dir base ∈ fs → csv_files files ≠ [] →
      (program_setup base fs files).datasets = some (csv_files files) ∧
      (∀ n, Effect.exitCode n ∉ (program_setup base fs files).effects)) := by
  refine ⟨?_, ?_, ?_⟩
  · intro h
    rw [program_setup_missing base fs files h]
    exact ⟨rfl, by simp, by simp, ⟨"Error: \x27", "\x27 not found.", rfl⟩⟩
  · intro h h2
    rw [program_setup_nocsv base fs files h h2]
    exact ⟨rfl, by simp, by simp⟩
  · intro h h2
    rw [program_setup_ok base fs files h h2]
    refine ⟨rfl, ?_⟩
    intro n hn
    simp only [List.mem_cons, List.mem_map] at hn
    rcases hn with h1 | h1 | h1
    · exact Effect.noConfusion h1
    · exact Effect.noConfusion h1
    · obtain ⟨p, _, hp⟩ := h1
      exact Effect.noConfusion hp

/-- Witness for C7: the three scenarios instantiated concretely — a
missing input directory, an empty dataset directory, and a directory
holding one `.csv` file. -/
theorem c7_exit_behaviour_witness :
    ((program_setup "" [] []).datasets = none ∧
      Effect.exitCode 1 ∈ (program_setup "" [] []).effects ∧
      Effect.printOut (err_not_found "") ∈ (program_setup "" [] []).effects ∧
      (∃ pre post, err_not_found "" = pre ++ input_dir "" ++ post)) ∧
    ((program_setup "" [input_dir ""] ["readme.txt"]).datasets = none ∧
      Effect.exitCode 1 ∈ (program_setup "" [input_dir ""] ["readme.txt"]).effects ∧
      Effect.printOut no_csv_msg ∈ (program_setup "" [input_dir ""] ["readme.txt"]).effects) ∧
    ((program_setup "" [input_dir ""] ["d.csv"]).datasets =
        some (csv_files ["d.csv"]) ∧
      (∀ n, Effect.exitCode n ∉ (program_setup "" [input_dir ""] ["d.csv"]).effects)) :=
  ⟨(c7_exit_behaviour "" [] []).1 (by decide),
   (c7_exit_behaviour "" [input_dir ""] ["readme.txt"]).2.1 (by decide) (by decide),
   (c7_exit_behaviour "" [input_dir ""] ["d.csv"]).2.2 (by decide) (by decide)⟩

/-- C6: each interactive loop accepts a raw input string iff it meets its
constraint, and terminates only by accepting such a value: a dataset
index is accepted iff it parses as an integer in [1, n]; a threshold is
accepted iff it parses as a real with 0 < value ≤ 1; a non-numeric or
out-of-range entry produces the corrective message and a re-prompt on the
remaining inputs, never termination. The two threshold loops are the same
loop with their respective out-of-range messages. -/
theorem c6_input_loops (n : ℕ) :
    (∀ (inputs : List String) (k : ℤ) (rest : List String),
      (select_dataset_loop n inputs).2 = some (k, rest) →
      1 ≤ k ∧ k ≤ (n : ℤ)) ∧
    (∀ (s : String) (rest : List String) (k : ℤ),
      pyParseInt s = some k → 1 ≤ k → k ≤ (n : ℤ) →
      select_dataset_loop n (s :: rest) = ([], some (k, rest))) ∧
    (∀ (s : String) (rest : List String) (k : ℤ),
      pyParseInt s = some k → ¬(1 ≤ k ∧ k ≤ (n : ℤ)) →
      select_dataset_loop n (s :: rest) =
        (range_msg n :: (select_dataset_loop n rest).1,
         (select_dataset_loop n rest).2)) ∧
    (∀ (s : String) (rest : List String),
      pyParseInt s = none →
      select_dataset_loop n (s :: rest) =
        (invalid_int_msg :: (select_dataset_loop n rest).1,
         (select_dataset_loop n rest).2)) ∧
    (∀ (msg : String) (inputs : List String) (v : ℚ) (rest : List String),
      (float_threshold_loop msg inputs).2 = some (v, rest) →
      0 < v ∧ v ≤ 1) ∧
    (∀ (msg s : String) (rest : List String) (v : ℚ),
      pyParseFloat s = some v → 0 < v → v ≤ 1 →
      float_threshold_loop msg (s :: rest) = ([], some (v, rest))) ∧
    (∀ (msg s : String) (rest : List String) (v : ℚ),
      pyParseFloat s = some v → ¬(0 < v ∧ v ≤ 1) →
      float_threshold_loop msg (s :: rest) =
        (msg :: (float_threshold_loop msg rest).1,
         (float_threshold_loop msg rest).2)) ∧
    (∀ (msg s : String) (rest : List String),
      pyParseFloat s = none →
      float_threshold_loop msg (s :: rest) =
        (invalid_float_msg :: (float_threshold_loop msg rest).1,
         (float_threshold_loop msg rest).2)) ∧
    min_support_loop = float_threshold_loop support_range_msg ∧
    min_confidence_loop = float_threshold_loop confidence_range_msg := by
  refine ⟨?_, ?_, ?_, ?_, ?_, ?_, ?_, ?_, rfl, rfl⟩
  · intro inputs
    induction inputs with
    | nil =>
      intro k r h
      simp [select_dataset_loop] at h
    | cons s rest ih =>
      intro k r h
      cases hp : pyParseInt s with
      | some k0 =>
        simp only [select_dataset_loop, hp] at h
        by_cases hcond : 1 ≤ k0 ∧ k0 ≤ (n : ℤ)
        · rw [if_pos hcond] at h
          simp at h
          obtain ⟨rfl, rfl⟩ := h
          exact hcond
        · rw [if_neg hcond] at h
          simp at h
          exact ih k r h
      | none =>
        simp only [select_dataset_loop, hp] at h
        exact ih k r h
  · intro s rest k hp h1 h2
    simp only [select_dataset_loop, hp]
    rw [if_pos ⟨h1, h2⟩]
  · intro s rest k hp hcond
    simp only [select_dataset_loop, hp]
    rw [if_neg hcond]
  · intro s rest hp
    simp only [select_dataset_loop, hp]
  · intro msg inputs
    induction inputs with
    | nil =>
      intro v r h
      simp [float_threshold_loop] at h
    | cons s rest ih =>
      intro v r h
      cases hp : pyParseFloat s with
      | some v0 =>
        simp only [float_threshold_loop, hp] at h
        by_cases hcond : 0 < v0 ∧ v0 ≤ 1
        · rw [if_pos hcond] at h
          simp at h
          obtain ⟨rfl, rfl⟩ := h
          exact hcond
        · rw [if_neg hcond] at h
          simp at h
          exact ih v r h
      | none =>
        simp only [float_threshold_loop, hp] at h
        exact ih v r h
  · intro msg s rest v hp h1 h2
    simp only [float_threshold_loop, hp]
    rw [if_pos ⟨h1, h2⟩]
  · intro msg s rest v hp hcond
    simp only [float_threshold_loop, hp]
    rw [if_neg hcond]
  · intro msg s rest hp
    simp only [float_threshold_loop, hp]

/-- Witness for C6: concrete runs of the loops — the dataset loop over
three datasets rejects `abc` and `7` but accepts `2`; the support loop
accepts `1`. -/
theorem c6_input_loops_witness :
    (1 ≤ (2 : ℤ) ∧ (2 : ℤ) ≤ ((3 : ℕ) : ℤ)) ∧
    select_dataset_loop 3 ["2"] = ([], some (2, [])) ∧
    select_dataset_loop 3 ("7" :: ["2"]) =
      (range_msg 3 :: (select_dataset_loop 3 ["2"]).1,
       (select_dataset_loop 3 ["2"]).2) ∧
    select_dataset_loop 3 ("abc" :: ["2"]) =
      (invalid_int_msg :: (select_dataset_loop 3 ["2"]).1,
       (select_dataset_loop 3 ["2"]).2) ∧
    (0 < (1 : ℚ) ∧ (1 : ℚ) ≤ 1) ∧
    float_threshold_loop support_range_msg ["1"] = ([], some (1, [])) :=
  ⟨(c6_input_loops 3).1 ["2"] 2 [] (by decide),
   (c6_input_loops 3).2.1 "2" [] 2 (by decide) (by decide) (by decide),
   (c6_input_loops 3).2.2.1 "7" ["2"] 7 (by decide) (by decide),
   (c6_input_loops 3).2.2.2.1 "abc" ["2"] (by decide),
   (c6_input_loops 3).2.2.2.2.1 support_range_msg ["1"] 1 []
     (by simp [float_threshold_loop, pyParseFloat, pyStrip, isSpace,
               decimalVal, splitOnChar, digitsOk, digitsToNat]),
   (c6_input_loops 3).2.2.2.2.2.1 support_range_msg "1" [] 1
     (by simp [pyParseFloat, pyStrip, isSpace, decimalVal, splitOnChar,
               digitsOk, digitsToNat])
     zero_lt_one le_rfl⟩
